import Mathlib

/-!
Verification development for the SMASH shell ("smash", a SMAll SHell).

The definitions below are a shallow embedding of the C sources:
`src/parse.c` (input parsing), `src/jobs.c` (job table and job control),
`src/builtin.c` (builtin commands) and `src/smash.c` (main loop), with
data structures from `include/jobs.h`.  C strings are modelled as Lean
`String`s (no interior NUL bytes), the singly linked job list as a
`List Job`, and machine `int`s as `Nat`/`Int` (the values involved —
status codes, wait statuses, job ids, exit codes — are all provably
non-negative and small).  OS calls (fork, wait, tcsetpgrp, dprintf) are
modelled by explicit outcome fields / oracle arguments where a theorem
needs them.
-/

namespace Smash

/-- Job status code `NEW` (0) from `include/jobs.h`. -/
def NEW : Nat := 0

/-- Job status code `RUNNING` (1) from `include/jobs.h`. -/
def RUNNING : Nat := 1

/-- Job status code `SUSPENDED` (2) from `include/jobs.h`. -/
def SUSPENDED : Nat := 2

/-- Job status code `EXITED` (3) from `include/jobs.h`. -/
def EXITED : Nat := 3

/-- Job status code `ABORTED` (4) from `include/jobs.h`. -/
def ABORTED : Nat := 4

/-- Job status code `CANCELED` (5) from `include/jobs.h`. -/
def CANCELED : Nat := 5

/-- One command of a pipeline: struct `command_t` (declared in `parse.h`,
whose text is absent from `src/`; fields reconstructed from every use in
`src/parse.c` and `src/jobs.c`).  `command` is the raw text of the
command (the `strdup` of the pipe-separated segment before inner
tokenization), `components` the argv words, and the remaining fields the
redirection targets.  The transient pipe fds `in_fd`/`out_fd` exist only
under `EXTRA_CREDIT` and are not modelled. -/
structure Command where
  command : String
  components : List String
  redirect_stdout : Option String
  redirect_stderr : Option String
  redirect_stdin : Option String
  append_stdout : Bool
deriving DecidableEq, Repr

/-- A parsed input line: struct `user_input_t` (from the absent `parse.h`,
fields reconstructed from every use in `src/parse.c`, `src/jobs.c` and
`src/smash.c`). -/
structure UserInput where
  input : String
  commands : List Command
  is_background_command : Bool
deriving DecidableEq, Repr

/-- A job: struct `job_t` from `include/jobs.h`.  The `next` pointer is
represented by membership in a `List Job`; `termattr` (terminal modes)
and the `EXTRA_CREDIT` `starttime` are opaque OS state and not modelled.
`exitcode` is a C `int` that is only ever assigned `WEXITSTATUS`/
`WTERMSIG` values (non-negative), so it is a `Nat` here. -/
structure Job where
  ui : UserInput
  status : Nat
  exitcode : Nat
  pgid : Int
  jobid : Nat
  is_background_job : Bool
  is_in_bg : Bool
deriving DecidableEq, Repr

/-- Linux wait-status predicate `WIFSTOPPED(s)`: the low byte is `0x7f`.
The `WIF*` macros are platform (glibc/Linux) definitions, embedded here
arithmetically on the non-negative wait status. -/
def wifstopped (s : Nat) : Bool := s % 256 == 127

/-- Linux wait-status predicate `WIFCONTINUED(s)`: the status is `0xffff`. -/
def wifcontinued (s : Nat) : Bool := s == 65535

/-- Linux `WTERMSIG(s)`: the low seven bits. -/
def wtermsig (s : Nat) : Nat := s % 128

/-- Linux wait-status predicate `WIFSIGNALED(s)`: the low seven bits are
neither `0` nor `0x7f` (equivalent to glibc's signed-char formulation on
the range `0..127`). -/
def wifsignaled (s : Nat) : Bool := s % 128 != 0 && s % 128 != 127

/-- Linux wait-status predicate `WIFEXITED(s)`: the low seven bits are `0`. -/
def wifexited (s : Nat) : Bool := s % 128 == 0

/-- Linux `WEXITSTATUS(s)`: the second byte. -/
def wexitstatus (s : Nat) : Nat := (s / 256) % 256

/-- `job_update_status` from `src/jobs.c` lines 799-851, on a non-NULL
job: the `if/else if` chain over the `WIF*` tests of the wait status.
The debug `dprintf`s do not touch the job and are omitted. -/
def job_update_status (j : Job) (status : Nat) : Job :=
  if wifstopped status then
    { j with status := SUSPENDED }
  else if wifcontinued status then
    { j with status := RUNNING }
  else if wifsignaled status then
    { j with status := ABORTED, exitcode := wtermsig status }
  else if wifexited status then
    { j with status := EXITED, exitcode := wexitstatus status }
  else
    j

/-- Claim C1: for every wait status passed to `job_update_status` on a
non-null job: stopped makes the status `SUSPENDED`, continued makes it
`RUNNING` (both leaving `exitcode` untouched), signal termination makes
it `ABORTED` with `exitcode` the terminating signal, and normal exit
makes it `EXITED` with `exitcode` the normal exit status. -/
theorem C1_job_update_status_transitions (j : Job) (s : Nat) :
    (wifstopped s = true →
      (job_update_status j s).status = SUSPENDED ∧
      (job_update_status j s).exitcode = j.exitcode) ∧
    (wifcontinued s = true →
      (job_update_status j s).status = RUNNING ∧
      (job_update_status j s).exitcode = j.exitcode) ∧
    (wifsignaled s = true →
      (job_update_status j s).status = ABORTED ∧
      (job_update_status j s).exitcode = wtermsig s) ∧
    (wifexited s = true →
      (job_update_status j s).status = EXITED ∧
      (job_update_status j s).exitcode = wexitstatus s) := by
  unfold job_update_status
  simp only [wifstopped, wifcontinued, wifsignaled, wifexited, wtermsig,
    wexitstatus, beq_iff_eq, Bool.and_eq_true, bne_iff_ne, ne_eq]
  refine ⟨?_, ?_, ?_, ?_⟩
  · intro h
    simp [h]
  · intro h
    have h1 : ¬ s % 256 = 127 := by omega
    simp [h, h1]
  · intro h
    have h1 : ¬ s % 256 = 127 := by omega
    have h2 : ¬ s = 65535 := by omega
    simp [h.1, h.2, h1, h2]
  · intro h
    have h1 : ¬ s % 256 = 127 := by omega
    have h2 : ¬ s = 65535 := by omega
    simp [h, h1, h2]

/-- `jobs_create` from `src/jobs.c` lines 908-932 on a non-NULL input:
`malloc` + `memset 0` (status `NEW = 0`, all flags and ids zero), then
store the parsed input. -/
def jobs_create (ui : UserInput) : Job :=
  { ui := ui, status := NEW, exitcode := 0, pgid := 0, jobid := 0,
    is_background_job := false, is_in_bg := false }

/-- `jobs_insert` from `src/jobs.c` lines 944-987 on a non-NULL job: if
the list is empty the job gets id 1 and becomes the whole list,
otherwise the code walks to the last node, appends the job there and
gives it the last node's id plus one. -/
def jobs_insert (tbl : List Job) (job : Job) : List Job :=
  match tbl.getLast? with
  | none => [{ job with jobid := 1 }]
  | some last => tbl ++ [{ job with jobid := last.jobid + 1 }]

/-- `jobs_remove` from `src/jobs.c` lines 998-1044: unlink the given
node from the singly linked list (and free it).  Pointer identity is
modelled by the job id: the first node with that id is unlinked; the
rest of the list is untouched. -/
def jobs_remove (tbl : List Job) (jid : Nat) : List Job :=
  tbl.eraseP (fun x => x.jobid == jid)

/-- Every member of a list of naturals is bounded by its `foldr max 0`. -/
theorem le_foldr_max (l : List Nat) : ∀ x ∈ l, x ≤ l.foldr max 0 := by
  induction l with
  | nil => intro x hx; cases hx
  | cons a l ih =>
    intro x hx
    rcases List.mem_cons.mp hx with h | h
    · exact h ▸ Nat.le_max_left a (l.foldr max 0)
    · exact Nat.le_trans (ih x h) (Nat.le_max_right a (l.foldr max 0))

/-- On a strictly increasing list of naturals, `foldr max 0` is the last
element. -/
theorem foldr_max_eq_getLast (l : List Nat) (h : l.Pairwise (· < ·)) :
    l.foldr max 0 = l.getLast?.getD 0 := by
  induction l with
  | nil => rfl
  | cons a l ih =>
    rcases List.pairwise_cons.mp h with ⟨ha, hl⟩
    cases l with
    | nil => simp
    | cons b l' =>
      have hmem : b ≤ (b :: l').foldr max 0 :=
        le_foldr_max (b :: l') b (List.mem_cons_self b l')
      have hab : a < b := ha b (List.mem_cons_self b l')
      have hmax : max a ((b :: l').foldr max 0) = (b :: l').foldr max 0 :=
        Nat.max_eq_right (Nat.le_trans (Nat.le_of_lt hab) hmem)
      calc (a :: b :: l').foldr max 0
          = max a ((b :: l').foldr max 0) := rfl
        _ = (b :: l').foldr max 0 := hmax
        _ = ((b :: l').getLast?).getD 0 := ih hl
        _ = ((a :: b :: l').getLast?).getD 0 := by
              rw [List.getLast?_cons_cons]

/-- `getLast?` commutes with `map`. -/
theorem getLast?_map_jobid (tbl : List Job) :
    (tbl.map Job.jobid).getLast? = tbl.getLast?.map Job.jobid := by
  induction tbl with
  | nil => rfl
  | cons a l ih =>
    cases l with
    | nil => rfl
    | cons b l' => simpa using ih

/-- Claim C2: `jobs_insert` appends the new job at the end with id one
more than the last job's id (1 on an empty table), which under the
strictly-increasing-ids invariant equals the maximum existing id plus
one; the invariant is preserved, and `jobs_remove` only unlinks one
node, preserving the order (sublist) and the invariant. -/
theorem C2_job_ids_monotonic (tbl : List Job) (job : Job) (jid : Nat)
    (h : tbl.Pairwise (fun a b => a.jobid < b.jobid)) :
    (jobs_insert tbl job).map Job.jobid
      = tbl.map Job.jobid ++ [(tbl.map Job.jobid).foldr max 0 + 1] ∧
    (jobs_insert tbl job).Pairwise (fun a b => a.jobid < b.jobid) ∧
    List.Sublist ((jobs_remove tbl jid).map Job.jobid) (tbl.map Job.jobid) ∧
    (jobs_remove tbl jid).Pairwise (fun a b => a.jobid < b.jobid) := by
  have hids : (tbl.map Job.jobid).Pairwise (· < ·) :=
    List.pairwise_map.mpr h
  have hmax : (tbl.map Job.jobid).foldr max 0
      = (tbl.map Job.jobid).getLast?.getD 0 :=
    foldr_max_eq_getLast _ hids
  refine ⟨?_, ?_, ?_, ?_⟩
  · unfold jobs_insert
    cases e : tbl.getLast? with
    | none =>
      have : tbl = [] := List.getLast?_eq_none_iff.mp e
      subst this
      rfl
    | some last =>
      have : (tbl.map Job.jobid).getLast? = some last.jobid := by
        rw [getLast?_map_jobid, e]; rfl
      simp [hmax, this]
  · unfold jobs_insert
    cases e : tbl.getLast? with
    | none => exact List.pairwise_singleton _ _
    | some last =>
      have hlast : (tbl.map Job.jobid).getLast? = some last.jobid := by
        rw [getLast?_map_jobid, e]; rfl
      refine List.pairwise_append.mpr ⟨h, List.pairwise_singleton _ _, ?_⟩
      intro a ha b hb
      have hb' : b = { job with jobid := last.jobid + 1 } :=
        List.mem_singleton.mp hb
      have hle : a.jobid ≤ (tbl.map Job.jobid).foldr max 0 :=
        le_foldr_max _ _ (List.mem_map_of_mem Job.jobid ha)
      have : a.jobid ≤ last.jobid := by
        rw [hmax, hlast] at hle
        exact hle
      rw [hb']
      exact Nat.lt_succ_of_le this
  · exact List.Sublist.map Job.jobid (List.eraseP_sublist tbl)
  · exact List.Pairwise.sublist (List.eraseP_sublist tbl) h

/-- `jobs_status_as_char` from `src/jobs.c` lines 1250-1275: lowercase
name of a status code, `NULL` (here `none`) on anything else. -/
def jobs_status_as_char (status : Nat) : Option String :=
  if status = NEW then some ("new")
  else if status = RUNNING then some ("running")
  else if status = SUSPENDED then some ("suspended")
  else if status = EXITED then some ("exited")
  else if status = ABORTED then some ("aborted")
  else if status = CANCELED then some ("canceled")
  else none

/-- `print_job` from `src/jobs.c` lines 1171-1204 on a non-NULL job:
the single line written to stdout.  Non-terminal states use the format
string `"[%d] (%s) %s\n"`, `EXITED`/`ABORTED` use
`"[%d] (%s <%d>) %s\n"` — note the literal angle brackets around the
exit code.  (glibc's `dprintf` renders a NULL `%s` argument as
`"(null)"`, which only arises for invalid status codes.) -/
def print_job (j : Job) : String :=
  if j.status ≠ EXITED ∧ j.status ≠ ABORTED then
    "[" ++ Nat.repr j.jobid ++ "] ("
      ++ ((jobs_status_as_char j.status).getD ("(null)")) ++ ") "
      ++ j.ui.input ++ "\n"
  else
    "[" ++ Nat.repr j.jobid ++ "] ("
      ++ ((jobs_status_as_char j.status).getD ("(null)")) ++ " <"
      ++ Nat.repr j.exitcode ++ ">) " ++ j.ui.input ++ "\n"

/-- `jobs_list` from `src/jobs.c` lines 1214-1239 (the success path,
where every `print_job` succeeds): walk the table, print each job, and
remove the `EXITED`/`ABORTED` ones as they are passed.  Returns the
printed lines in order and the table left behind. -/
def jobs_list : List Job → List String × List Job
  | [] => ([], [])
  | j :: rest =>
    let r := jobs_list rest
    if j.status = EXITED ∨ j.status = ABORTED then
      (print_job j :: r.1, r.2)
    else
      (print_job j :: r.1, j :: r.2)

/-- Claim C3: after a successful `jobs_list`, every job has been printed
exactly once (one line per table entry, in order), the table retains
exactly the jobs whose status is neither `EXITED` nor `ABORTED`, and
hence no remaining job is `EXITED` or `ABORTED`. -/
theorem C3_jobs_list_reaps_finished (tbl : List Job) :
    (jobs_list tbl).1 = tbl.map print_job ∧
    (jobs_list tbl).2
      = tbl.filter (fun j => !(j.status == EXITED || j.status == ABORTED)) ∧
    ∀ j ∈ (jobs_list tbl).2, j.status ≠ EXITED ∧ j.status ≠ ABORTED := by
  induction tbl with
  | nil => exact ⟨rfl, rfl, fun j hj => absurd hj (List.not_mem_nil j)⟩
  | cons a rest ih =>
    rcases ih with ⟨ih1, ih2, ih3⟩
    by_cases hterm : a.status = EXITED ∨ a.status = ABORTED
    · have heq : jobs_list (a :: rest)
          = (print_job a :: (jobs_list rest).1, (jobs_list rest).2) := by
        simp only [jobs_list, if_pos hterm]
      have hpa : (!(a.status == EXITED || a.status == ABORTED)) = false := by
        rcases hterm with h | h <;> simp [h]
      refine ⟨?_, ?_, ?_⟩
      · rw [heq, List.map_cons, ← ih1]
      · rw [heq, List.filter_cons, hpa]
        simpa using ih2
      · intro j hj
        rw [heq] at hj
        exact ih3 j hj
    · have heq : jobs_list (a :: rest)
          = (print_job a :: (jobs_list rest).1, a :: (jobs_list rest).2) := by
        simp only [jobs_list, if_neg hterm]
      push_neg at hterm
      have hpa : (!(a.status == EXITED || a.status == ABORTED)) = true := by
        simp [hterm.1, hterm.2]
      refine ⟨?_, ?_, ?_⟩
      · rw [heq, List.map_cons, ← ih1]
      · rw [heq, List.filter_cons, hpa]
        simpa using ih2
      · intro j hj
        rw [heq] at hj
        rcases List.mem_cons.mp hj with rfl | hmem
        · exact hterm
        · exact ih3 j hmem

/-- Sample job used to instantiate hypotheses of the claim theorems. -/
def sampleUi : UserInput :=
  { input := "sleep 60", commands := [], is_background_command := false }

/-- A concrete running job for witnesses. -/
def sampleJob : Job :=
  { ui := sampleUi, status := RUNNING, exitcode := 0, pgid := 100,
    jobid := 1, is_background_job := false, is_in_bg := true }

/-- Witness for C1: the four transition hypotheses discharged at the
concrete wait statuses `0x137f` (stopped by SIGSTOP), `0xffff`
(continued), `15` (killed by SIGTERM) and `0x0200` (exited with 2). -/
theorem C1_witness :
    (job_update_status sampleJob 4991).status = SUSPENDED ∧
    (job_update_status sampleJob 65535).status = RUNNING ∧
    (job_update_status sampleJob 15).exitcode = 15 ∧
    (job_update_status sampleJob 512).exitcode = 2 :=
  ⟨((C1_job_update_status_transitions sampleJob 4991).1 (by decide)).1,
   ((C1_job_update_status_transitions sampleJob 65535).2.1 (by decide)).1,
   (((C1_job_update_status_transitions sampleJob 15).2.2.1 (by decide)).2).trans (by decide),
   (((C1_job_update_status_transitions sampleJob 512).2.2.2 (by decide)).2).trans (by decide)⟩

/-- A concrete exited job for witnesses. -/
def exitedJob : Job :=
  { ui := sampleUi, status := EXITED, exitcode := 7, pgid := 101,
    jobid := 2, is_background_job := false, is_in_bg := true }

/-- A concrete two-entry job table with strictly increasing ids. -/
def sampleTable : List Job := [sampleJob, exitedJob]

/-- Witness for C2: on the concrete table with ids `[1, 2]`, inserting a
fresh job yields ids `[1, 2, 3]`, and removing job 1 leaves a sublist of
the original ids. -/
theorem C2_witness :
    (jobs_insert sampleTable (jobs_create sampleUi)).map Job.jobid
      = [1, 2, 3] ∧
    List.Sublist ((jobs_remove sampleTable 1).map Job.jobid)
      (sampleTable.map Job.jobid) :=
  ⟨((C2_job_ids_monotonic sampleTable (jobs_create sampleUi) 1
      (by decide)).1).trans (by decide),
   (C2_job_ids_monotonic sampleTable (jobs_create sampleUi) 1
      (by decide)).2.2.1⟩

/-- Witness for C3: listing the concrete table drops the exited job and
keeps the running one, which is indeed in neither terminal state. -/
theorem C3_witness :
    (jobs_list sampleTable).2 = [sampleJob] ∧
    sampleJob.status ≠ EXITED ∧ sampleJob.status ≠ ABORTED :=
  ⟨((C3_jobs_list_reaps_finished sampleTable).2.1).trans (by decide),
   (C3_jobs_list_reaps_finished sampleTable).2.2 sampleJob (by decide)⟩

/-- Outcome record of one `run_in_foreground` call: the returned value,
the final job state, whether `job_wait` was reached, whether the
terminal was handed to the job (`tcsetpgrp`), whether `SIGCONT` was
sent, the resulting `last_exit_code`, and any line printed to stdout. -/
structure FgOutcome where
  retval : Int
  job : Option Job
  waited : Bool
  transferred : Bool
  sent_cont : Bool
  last_exit : Nat
  printed : Option String
deriving DecidableEq, Repr

/-- `run_in_foreground` from `src/jobs.c` lines 579-644.  The two
`VALIDATE`s and the already-in-foreground check come before any
mutation or OS call; on the success path the job is marked running and
foregrounded, the terminal is handed over, `SIGCONT` is sent when
`cont` is set and the job was not already `RUNNING`, `job_wait` reaps
one wait status (`wait_status = none` models a failed `waitpid`, which
leaves the job untouched), the shell reclaims the terminal, and finally
`last_exit_code` is recorded on a normal exit while a stopped job has
its line printed. -/
def run_in_foreground (oj : Option Job) (cont : Bool)
    (wait_status : Option Nat) (last_exit : Nat) : FgOutcome :=
  match oj with
  | none =>
    { retval := -1, job := none, waited := false, transferred := false,
      sent_cont := false, last_exit := last_exit, printed := none }
  | some job =>
    if ¬(job.status = NEW ∨ job.status = SUSPENDED ∨ job.status = RUNNING) then
      { retval := -1, job := some job, waited := false, transferred := false,
        sent_cont := false, last_exit := last_exit, printed := none }
    else if job.status = RUNNING ∧ job.is_in_bg = false then
      { retval := -1, job := some job, waited := false, transferred := false,
        sent_cont := false, last_exit := last_exit, printed := none }
    else
      let sc := cont && (job.status != RUNNING)
      let j2 := match wait_status with
        | none => { job with status := RUNNING, is_in_bg := false }
        | some s =>
            job_update_status { job with status := RUNNING, is_in_bg := false } s
      if j2.status = EXITED then
        { retval := 0, job := some j2, waited := true, transferred := true,
          sent_cont := sc, last_exit := j2.exitcode, printed := none }
      else if j2.status = SUSPENDED then
        { retval := 0, job := some j2, waited := true, transferred := true,
          sent_cont := sc, last_exit := last_exit,
          printed := some (print_job j2) }
      else
        { retval := 0, job := some j2, waited := true, transferred := true,
          sent_cont := sc, last_exit := last_exit, printed := none }

/-- Claim C4: `run_in_foreground` returns an error without waiting or
transferring the terminal whenever the job is null, its status is
outside `{NEW, SUSPENDED, RUNNING}`, or it is `RUNNING` and already in
the foreground; on every such error return the job (in particular its
`status` and `is_in_bg` fields) is unchanged. -/
theorem C4_run_in_foreground_rejects (job : Job) (cont : Bool)
    (w : Option Nat) (le : Nat) :
    ((run_in_foreground none cont w le).retval = -1 ∧
      (run_in_foreground none cont w le).waited = false ∧
      (run_in_foreground none cont w le).transferred = false) ∧
    (¬(job.status = NEW ∨ job.status = SUSPENDED ∨ job.status = RUNNING) →
      run_in_foreground (some job) cont w le =
        { retval := -1, job := some job, waited := false,
          transferred := false, sent_cont := false, last_exit := le,
          printed := none }) ∧
    (job.status = RUNNING ∧ job.is_in_bg = false →
      run_in_foreground (some job) cont w le =
        { retval := -1, job := some job, waited := false,
          transferred := false, sent_cont := false, last_exit := le,
          printed := none }) := by
  refine ⟨⟨rfl, rfl, rfl⟩, ?_, ?_⟩
  · intro h
    simp only [run_in_foreground, if_pos h]
  · intro h
    have h1 : ¬¬(job.status = NEW ∨ job.status = SUSPENDED ∨
        job.status = RUNNING) := not_not_intro (Or.inr (Or.inr h.1))
    simp only [run_in_foreground, if_neg h1, if_pos h]

/-- Witness for C4: a `SUSPENDED` job that is `RUNNING`-in-foreground…
instantiated concretely: an `EXITED` job is rejected with the job left
unchanged, and so is a foreground `RUNNING` job. -/
theorem C4_witness :
    run_in_foreground (some exitedJob) true (some 0) 5 =
      { retval := -1, job := some exitedJob, waited := false,
        transferred := false, sent_cont := false, last_exit := 5,
        printed := none } ∧
    run_in_foreground (some { sampleJob with is_in_bg := false }) true
        (some 0) 5 =
      { retval := -1, job := some { sampleJob with is_in_bg := false },
        waited := false, transferred := false, sent_cont := false,
        last_exit := 5, printed := none } :=
  ⟨(C4_run_in_foreground_rejects exitedJob true (some 0) 5).2.1 (by decide),
   (C4_run_in_foreground_rejects { sampleJob with is_in_bg := false } true
      (some 0) 5).2.2 ⟨by decide, by decide⟩⟩

/-- Success path of `run_in_foreground`: with the guards passed, the
call reduces to marking the job running-in-foreground, reaping one wait
status, and dispatching on the resulting state. -/
theorem run_in_foreground_success (job : Job) (cont : Bool) (s : Nat)
    (le : Nat)
    (hg1 : job.status = NEW ∨ job.status = SUSPENDED ∨ job.status = RUNNING)
    (hg2 : ¬(job.status = RUNNING ∧ job.is_in_bg = false)) :
    run_in_foreground (some job) cont (some s) le =
      (let sc := cont && (job.status != RUNNING)
       let j2 := job_update_status
         { job with status := RUNNING, is_in_bg := false } s
       if j2.status = EXITED then
        { retval := 0, job := some j2, waited := true, transferred := true,
          sent_cont := sc, last_exit := j2.exitcode, printed := none }
       else if j2.status = SUSPENDED then
        { retval := 0, job := some j2, waited := true, transferred := true,
          sent_cont := sc, last_exit := le,
          printed := some (print_job j2) }
       else
        { retval := 0, job := some j2, waited := true, transferred := true,
          sent_cont := sc, last_exit := le, printed := none }) := by
  simp only [run_in_foreground, if_neg (not_not_intro hg1), if_neg hg2]

/-- Claim C8: after `run_in_foreground` finishes waiting on a job,
`last_exit_code` is the job's exit code exactly when the final status is
`EXITED`, is left unchanged otherwise, and a finally-`SUSPENDED` job has
its job line printed instead. -/
theorem C8_run_in_foreground_last_exit (job : Job) (cont : Bool) (s : Nat)
    (le : Nat)
    (h : job.status = NEW ∨ job.status = SUSPENDED ∨
      (job.status = RUNNING ∧ job.is_in_bg = true)) :
    ∀ j2, (run_in_foreground (some job) cont (some s) le).job = some j2 →
      (j2.status = EXITED →
        (run_in_foreground (some job) cont (some s) le).last_exit
          = j2.exitcode ∧
        (run_in_foreground (some job) cont (some s) le).printed = none) ∧
      (j2.status ≠ EXITED →
        (run_in_foreground (some job) cont (some s) le).last_exit = le) ∧
      (j2.status = SUSPENDED →
        (run_in_foreground (some job) cont (some s) le).printed
          = some (print_job j2)) := by
  have hg1 : job.status = NEW ∨ job.status = SUSPENDED ∨
      job.status = RUNNING := by
    rcases h with h | h | h
    · exact Or.inl h
    · exact Or.inr (Or.inl h)
    · exact Or.inr (Or.inr h.1)
  have hg2 : ¬(job.status = RUNNING ∧ job.is_in_bg = false) := by
    rcases h with h | h | h
    · intro hc
      rw [h] at hc
      exact absurd hc.1 (by decide)
    · intro hc
      rw [h] at hc
      exact absurd hc.1 (by decide)
    · intro hc
      rw [h.2] at hc
      exact absurd hc.2 (by decide)
  rw [run_in_foreground_success job cont s le hg1 hg2]
  intro j2 hj2
  by_cases he : (job_update_status
      { job with status := RUNNING, is_in_bg := false } s).status = EXITED
  · simp only [if_pos he] at hj2 ⊢
    cases hj2
    refine ⟨fun _ => ⟨by trivial, by trivial⟩, fun hne => absurd he hne,
      fun hs => ?_⟩
    rw [he] at hs
    exact absurd hs (by decide)
  · by_cases hsus : (job_update_status
        { job with status := RUNNING, is_in_bg := false } s).status
          = SUSPENDED
    · simp only [if_neg he, if_pos hsus] at hj2 ⊢
      cases hj2
      exact ⟨fun hex => absurd hex he, fun _ => by trivial, fun _ => by trivial⟩
    · simp only [if_neg he, if_neg hsus] at hj2 ⊢
      cases hj2
      exact ⟨fun hex => absurd hex he, fun _ => by trivial,
        fun hs => absurd hs hsus⟩

/-- Tokenizer accumulator for `splitTok`: walk the characters, growing
the current token and emitting it at each delimiter run. -/
def splitTokAux (delims : List Char) : List Char → List Char → List (List Char)
  | [], acc => if acc = [] then [] else [acc]
  | c :: cs, acc =>
    if c ∈ delims then
      if acc = [] then splitTokAux delims cs []
      else acc :: splitTokAux delims cs []
    else splitTokAux delims cs (acc ++ [c])

/-- The token sequence produced by repeated `strtok_r` over a delimiter
set: maximal runs of non-delimiter characters, in order; no empty
tokens. -/
def splitTok (delims : List Char) (s : List Char) : List (List Char) :=
  splitTokAux delims s []

/-- Modelled from the spec: `COMMAND_DELIMS` is defined in `parse.h`,
which is absent from `src/`; §4.A says commands are split on `|`. -/
def COMMAND_DELIMS : List Char := ['|']

/-- Modelled from the spec: `COMPONENT_DELIMS` is defined in `parse.h`,
which is absent from `src/`; §4.A says each command is split on
whitespace into tokens. -/
def COMPONENT_DELIMS : List Char := [' ', '\t', '\r', '\n']

/-- Truth of `strncmp(a, b, n) == 0` for NUL-terminated strings: the
first `n` characters agree, where running off either end is reaching
the NUL terminator. -/
def strncmp_eq : List Char → List Char → Nat → Bool
  | _, _, 0 => true
  | [], [], _ + 1 => true
  | [], _ :: _, _ + 1 => false
  | _ :: _, [], _ + 1 => false
  | a :: as, b :: bs, n + 1 => a == b && strncmp_eq as bs n

/-- Truth of the C token's classification as a redirection operator:
the `if/else if` chain of `parse_input` tests, in order, `strncmp` with
`>>`, `>`, `2>` and `<` (`src/parse.c` lines 271-339); this predicate
is true when any of those four prefix tests succeeds. -/
def is_redirect (t1 : List Char) : Bool :=
  strncmp_eq t1 (['>', '>']) 2 || strncmp_eq t1 (['>']) 1 ||
  strncmp_eq t1 (['2', '>']) 2 || strncmp_eq t1 (['<']) 1

/-- Length of the redirection operator that `parse_input`'s chain
matches first (the `strlen` threshold that separates `>file` from
`> file`): 2 for `>>`, 1 for `>`, 2 for `2>`, 1 for `<`. -/
def redir_oplen (t1 : List Char) : Nat :=
  if strncmp_eq t1 (['>', '>']) 2 then 2
  else if strncmp_eq t1 (['>']) 1 then 1
  else if strncmp_eq t1 (['2', '>']) 2 then 2
  else 1

/-- Field update performed for the redirection operator that
`parse_input`'s chain matches first: `>>` sets `redirect_stdout` and
`append_stdout`, `>` sets `redirect_stdout`, `2>` sets
`redirect_stderr`, `<` sets `redirect_stdin`. -/
def redir_update (t1 : List Char) (path : String) (cmd : Command) : Command :=
  if strncmp_eq t1 (['>', '>']) 2 then
    { cmd with redirect_stdout := some path, append_stdout := true }
  else if strncmp_eq t1 (['>']) 1 then
    { cmd with redirect_stdout := some path }
  else if strncmp_eq t1 (['2', '>']) 2 then
    { cmd with redirect_stderr := some path }
  else
    { cmd with redirect_stdin := some path }

/-- The per-token loop of `parse_input` (`src/parse.c` lines 243-351)
on one command's whitespace tokens.  A token starting with `&` sets the
background flag and is consumed whole; otherwise a trailing `&` sets
the flag and is stripped in place; the remaining text is then checked
against `>>`, `>`, `2>`, `<` in that order (an operator longer than the
matched prefix carries its path inline, a bare operator takes the next
token as its path — `none` models the `strdup(NULL)` crash when there
is no next token) and otherwise appended to the component (argv)
list. -/
def proc_components : List (List Char) → Command → Bool → Option (Command × Bool)
  | [], cmd, bg => some (cmd, bg)
  | t :: rest, cmd, bg =>
    if t.head? = some '&' then
      proc_components rest cmd true
    else
      let bg1 := if t.getLast? = some '&' then true else bg
      let t1 := if t.getLast? = some '&' then t.dropLast else t
      if is_redirect t1 then
        if t1.length > redir_oplen t1 then
          proc_components rest
            (redir_update t1 (String.mk (t1.drop (redir_oplen t1))) cmd) bg1
        else
          match rest with
          | [] => none
          | p :: rest2 =>
            proc_components rest2 (redir_update t1 (String.mk p) cmd) bg1
      else
        proc_components rest
          { cmd with components := cmd.components ++ [String.mk t1] } bg1

/-- The outer command loop of `parse_input` (`src/parse.c` lines
222-354): each `|`-separated segment is `strdup`ed into a fresh
`command_t` appended to the pipeline, then its whitespace tokens are
processed; the background flag is shared across the whole line. -/
def parse_commands : List (List Char) → UserInput → Option UserInput
  | [], ui => some ui
  | ctext :: rest, ui =>
    match proc_components (splitTok COMPONENT_DELIMS ctext)
        { command := String.mk ctext, components := [],
          redirect_stdout := none, redirect_stderr := none,
          redirect_stdin := none, append_stdout := false }
        ui.is_background_command with
    | none => none
    | some (cmd, bg) =>
      parse_commands rest
        { ui with
          commands := ui.commands ++ [cmd],
          is_background_command := bg }

/-- `parse_input` from `src/parse.c` lines 196-362.  A NULL input
returns NULL (`some none`); otherwise the line always yields a non-NULL
`user_input_t` (the outer `some none` is never produced for non-null
input; allocation failures are not modelled, and the overall `none`
models the `strdup(NULL)` crash on a dangling redirection operator). -/
def parse_input (input : Option String) : Option (Option UserInput) :=
  match input with
  | none => some none
  | some s =>
    (parse_commands (splitTok COMMAND_DELIMS s.data)
      { input := s, commands := [], is_background_command := false }).map some

/-- Empty command record: a freshly `malloc`ed and zeroed `command_t`. -/
def emptyCmd0 : Command :=
  { command := "", components := [], redirect_stdout := none,
    redirect_stderr := none, redirect_stdin := none, append_stdout := false }

/-- The command the code actually parses from the line `echo &x&`. -/
def cmdEchoAmp : Command :=
  { emptyCmd0 with command := "echo &x&", components := ["echo"] }

/-- The pipeline the code actually parses from the line `echo &x&`. -/
def uiEchoAmp : UserInput :=
  { input := "echo &x&", commands := [cmdEchoAmp],
    is_background_command := true }

/-- Claim C5 counterexample: on the input line `echo &x&` the token
`&x&` ends in `&`, so per the claim only the trailing `&` should be
stripped and `&x` should survive as an argv word — the parsed argv
should be `["echo", "&x"]`.  The code instead tests the token's first
character, sets the background flag, and discards the whole token: the
parsed pipeline has argv `["echo"]` only. -/
theorem C5_counterexample :
    parse_input (some ("echo &x&")) = some (some uiEchoAmp) ∧
    uiEchoAmp.commands.map Command.components = [["echo"]] ∧
    ([["echo"]] : List (List String)) ≠ [["echo", "&x"]] :=
  ⟨by decide, by decide, by decide⟩

set_option maxHeartbeats 2000000 in
/-- Claim C5 (amended): in `parse_input`'s token loop, a token whose
first character is `&` sets the background flag and is consumed whole
(contributing nothing, even when it also ends in `&`); any other token
whose final character is `&` sets the background flag, only the
trailing `&` is stripped, and the remainder continues through the
redirection checks: a remainder that is not a redirection operator is
appended to argv, a redirection operator with an inline path records
that path, and a bare redirection operator consumes the next token as
its path; a token equal to `&` falls under the first rule. -/
theorem C5_amended_background_tokens (t : List Char) (c : Char)
    (rest : List (List Char)) (cmd : Command) (bg : Bool) :
    (t.head? = some '&' →
      proc_components (t :: rest) cmd bg = proc_components rest cmd true) ∧
    (t.head? = some c → c ≠ '&' → t.getLast? = some '&' →
      strncmp_eq t.dropLast (['>', '>']) 2 = false →
      strncmp_eq t.dropLast (['>']) 1 = false →
      strncmp_eq t.dropLast (['2', '>']) 2 = false →
      strncmp_eq t.dropLast (['<']) 1 = false →
      proc_components (t :: rest) cmd bg
        = proc_components rest
            { cmd with components := cmd.components ++ [String.mk t.dropLast] }
            true) ∧
    (t.head? = some c → c ≠ '&' → t.getLast? = some '&' →
      is_redirect t.dropLast = true →
      t.dropLast.length > redir_oplen t.dropLast →
      proc_components (t :: rest) cmd bg
        = proc_components rest
            (redir_update t.dropLast
              (String.mk (t.dropLast.drop (redir_oplen t.dropLast))) cmd)
            true) ∧
    (∀ p rest2, t.head? = some c → c ≠ '&' → t.getLast? = some '&' →
      is_redirect t.dropLast = true →
      ¬ t.dropLast.length > redir_oplen t.dropLast →
      rest = p :: rest2 →
      proc_components (t :: rest) cmd bg
        = proc_components rest2
            (redir_update t.dropLast (String.mk p) cmd) true) := by
  refine ⟨?_, ?_, ?_, ?_⟩
  · intro h
    rw [proc_components]
    rw [if_pos h]
  · intro hhead hc hlast h1 h2 h3 h4
    have hne : ¬ t.head? = some '&' := by
      rw [hhead]
      intro hx
      exact hc (Option.some.injEq c '&' ▸ hx)
    have hr : is_redirect t.dropLast = false := by
      simp [is_redirect, h1, h2, h3, h4]
    rw [proc_components]
    rw [if_neg hne]
    simp only [if_pos hlast]
    simp only [hr, Bool.false_eq_true, if_false]
  · intro hhead hc hlast hr hlen
    have hne : ¬ t.head? = some '&' := by
      rw [hhead]
      intro hx
      exact hc (Option.some.injEq c '&' ▸ hx)
    rw [proc_components]
    rw [if_neg hne]
    simp only [if_pos hlast]
    simp only [if_pos hr]
    rw [if_pos hlen]
  · intro p rest2 hhead hc hlast hr hlen hrest
    subst hrest
    have hne : ¬ t.head? = some '&' := by
      rw [hhead]
      intro hx
      exact hc (Option.some.injEq c '&' ▸ hx)
    rw [proc_components]
    rw [if_neg hne]
    simp only [if_pos hlast]
    simp only [if_pos hr]
    rw [if_neg hlen]

/-- Witness for C5 (amended): the rules at concrete tokens — `&x&` is
consumed whole setting the flag while `a&` becomes the argv word `a`;
`>f&` becomes the stdout redirection to `f` with the flag set; and the
bare `2>&` consumes the next token `e` as the stderr redirection. -/
theorem C5_amended_witness :
    (proc_components ([['&', 'x', '&'], ['a', '&']]) emptyCmd0 false
      = some ({ emptyCmd0 with components := ["a"] }, true)) ∧
    (proc_components ([['>', 'f', '&']]) emptyCmd0 false
      = some ({ emptyCmd0 with redirect_stdout := some ("f") }, true)) ∧
    (proc_components ([['2', '>', '&'], ['e']]) emptyCmd0 false
      = some ({ emptyCmd0 with redirect_stderr := some ("e") }, true)) := by
  refine ⟨?_, ?_, ?_⟩
  · rw [(C5_amended_background_tokens (['&', 'x', '&']) '&' ([['a', '&']])
      emptyCmd0 false).1 (by decide)]
    rw [(C5_amended_background_tokens (['a', '&']) 'a' ([]) emptyCmd0
      true).2.1 (by decide) (by decide) (by decide) (by decide) (by decide)
      (by decide) (by decide)]
    decide
  · rw [(C5_amended_background_tokens (['>', 'f', '&']) '>' ([]) emptyCmd0
      false).2.2.1 (by decide) (by decide) (by decide) (by decide)
      (by decide)]
    decide
  · rw [(C5_amended_background_tokens (['2', '>', '&']) '2' ([['e']])
      emptyCmd0 false).2.2.2 (['e']) ([]) (by decide) (by decide)
      (by decide) (by decide) (by decide) rfl]
    decide

/-- `exec_job` from `src/jobs.c` lines 655-787, up to the fork: a
non-NULL job is first inserted into the job table, and only then is the
pipeline's command list validated — an empty list makes `exec_job`
return `-1` with the job left in the table and nothing launched.  The
`Bool` result records whether control reached the fork/launch code
(whose process-level effects are modelled by `run_in_foreground`). -/
def exec_job (tbl : List Job) (j : Job) : List Job × Int × Bool :=
  let tbl2 := jobs_insert tbl j
  match j.ui.commands with
  | [] => (tbl2, -1, false)
  | _ :: _ => (tbl2, 0, true)

/-- The pipeline the code actually parses from the line `|`. -/
def uiPipe : UserInput :=
  { input := "|", commands := [], is_background_command := false }

/-- Claim C6 counterexample: for the non-null input line `|` (which the
main loop does not skip: it is non-empty after trimming and is no
builtin), `parse_input` yields a pipeline with zero commands.  Per the
claim this should be the same nothing-to-do result as for nil input and
no job should be created; but the nil-input result is NULL while this
is a non-NULL pipeline, and dispatching it creates a job that
`exec_job` inserts into the job table before failing. -/
theorem C6_counterexample :
    parse_input (some ("|")) = some (some uiPipe) ∧
    parse_input none = some none ∧
    (some uiPipe ≠ (none : Option UserInput)) ∧
    (exec_job [] (jobs_create uiPipe)).1.length = 1 ∧
    (exec_job [] (jobs_create uiPipe)).2.1 = -1 :=
  ⟨by decide, by decide, by decide, by decide, by decide⟩

/-- The pipeline the code actually parses from the line `&`: one
command whose argv is empty (the lone token sets the background flag
and is consumed). -/
def uiAmp : UserInput :=
  { input := "&", commands := [{ emptyCmd0 with command := "&" }],
    is_background_command := true }

/-- Claim C6 (amended): a non-null line is never folded into the
nil-input "empty" result.  A parse with no commands (e.g. the line `|`)
yields a non-null pipeline that the main loop does not skip: a job is
created, `exec_job` inserts it into the job table and then returns `-1`
without launching anything, and the loop continues silently.  A parse
containing a command with an empty argv (e.g. the line `&`) is likewise
kept: `exec_job` validates only that the first command exists, so it
inserts the job and proceeds to launch, returning 0. -/
theorem C6_amended_empty_pipeline (tbl : List Job) (j : Job) :
    (j.ui.commands = [] →
      exec_job tbl j = (jobs_insert tbl j, -1, false)) ∧
    (∀ cmd0 cmds, j.ui.commands = cmd0 :: cmds →
      exec_job tbl j = (jobs_insert tbl j, 0, true)) ∧
    (jobs_insert tbl j).length = tbl.length + 1 := by
  refine ⟨?_, ?_, ?_⟩
  · intro h
    unfold exec_job
    rw [h]
  · intro cmd0 cmds h
    unfold exec_job
    rw [h]
  · unfold jobs_insert
    cases e : tbl.getLast? with
    | none =>
      have : tbl = [] := List.getLast?_eq_none_iff.mp e
      subst this
      rfl
    | some last => simp

/-- Witness for C6 (amended): the no-commands case discharged at the
parsed pipeline of the line `|`, and the empty-argv case at the parsed
pipeline of the line `&` (whose parse is checked concretely), both
against an empty job table. -/
theorem C6_amended_witness :
    exec_job [] (jobs_create uiPipe)
      = (jobs_insert [] (jobs_create uiPipe), -1, false) ∧
    parse_input (some ("&")) = some (some uiAmp) ∧
    exec_job [] (jobs_create uiAmp)
      = (jobs_insert [] (jobs_create uiAmp), 0, true) ∧
    (jobs_insert [] (jobs_create uiAmp)).length = 1 :=
  ⟨(C6_amended_empty_pipeline [] (jobs_create uiPipe)).1 (by decide),
   by decide,
   (C6_amended_empty_pipeline [] (jobs_create uiAmp)).2.1
     ({ emptyCmd0 with command := "&" }) ([]) (by decide),
   ((C6_amended_empty_pipeline [] (jobs_create uiAmp)).2.2).trans
     (by decide)⟩

/-- Witness for C8: a suspended background job resumed in the
foreground that then exits with status 2 (wait status `0x0200`) records
`last_exit_code = 2` and prints nothing. -/
theorem C8_witness :
    (run_in_foreground (some { sampleJob with status := SUSPENDED }) true
        (some 512) 5).last_exit = 2 ∧
    (run_in_foreground (some { sampleJob with status := SUSPENDED }) true
        (some 512) 5).printed = none := by
  have h := C8_run_in_foreground_last_exit
    { sampleJob with status := SUSPENDED } true 512 5
    (Or.inr (Or.inl (by decide)))
    (job_update_status { sampleJob with status := RUNNING, is_in_bg := false }
      512)
    (by decide)
  have he := h.1 (by decide)
  exact ⟨he.1.trans (by decide), he.2⟩

/-- `BUILTIN_DELIMS` (`"\\t\\r\\n "`) from `src/builtin.c` line 26. -/
def BUILTIN_DELIMS : List Char := ['\t', '\r', '\n', ' ']

/-- C `isspace` in the default locale: space, tab, newline, vertical
tab, form feed, carriage return. -/
def isspace_c (c : Char) : Bool :=
  c == ' ' || c == '\t' || c == '\n' || c == '\x0b' || c == '\x0c' || c == '\r'

/-- Expansion of one `echo` token (`src/builtin.c` lines 276-293): a
token starting with `$` is substituted — `$?` by the decimal
`last_exit_code`, `$NAME` by the environment value of `NAME` (empty
when unset, as `getenv` is modelled by the `env` oracle); any other
token is kept literally. -/
def echo_expand (t : List Char) (last_exit : Nat)
    (env : String → Option String) : String :=
  match t with
  | '$' :: name =>
    if name = ['?'] then Nat.repr last_exit
    else (env (String.mk name)).getD ("")
  | _ => String.mk t

/-- The token loop of `builtin_echo`: each expanded token is written
followed by a single space. -/
def echo_loop (toks : List (List Char)) (last_exit : Nat)
    (env : String → Option String) : String :=
  match toks with
  | [] => ""
  | t :: rest => echo_expand t last_exit env ++ " " ++ echo_loop rest last_exit env

/-- `builtin_echo` from `src/builtin.c` lines 250-302: skip the leading
command word (advance while not `isspace`), tokenize the remainder on
`BUILTIN_DELIMS`, print each expanded token followed by a space, then a
final newline.  The returned string is everything written to stdout. -/
def builtin_echo (cmd : String) (last_exit : Nat)
    (env : String → Option String) : String :=
  echo_loop (splitTok BUILTIN_DELIMS (cmd.data.dropWhile (fun c => !(isspace_c c))))
    last_exit env ++ "\n"

/-- Spec-side concatenation of a list of strings, for stating the
output format of `echo`. -/
def join_all : List String → String
  | [] => ""
  | x :: rest => x ++ join_all rest

/-- The echo loop emits exactly the concatenation of the expanded
tokens, each followed by one space. -/
theorem echo_loop_eq_join (toks : List (List Char)) (le : Nat)
    (env : String → Option String) :
    echo_loop toks le env
      = join_all (toks.map (fun t => echo_expand t le env ++ " ")) := by
  induction toks with
  | nil => rfl
  | cons t rest ih =>
    simp only [echo_loop, join_all, List.map_cons, ih]

/-- Claim C7: `builtin_echo` writes, for each whitespace-separated
argument token, its expansion (`$?` → decimal `last_exit_code`,
`$NAME` → environment value or empty, else the literal token) followed
by a single space, and terminates the output with a newline; in
particular `echo hello` writes exactly `hello \n`. -/
theorem C7_builtin_echo_output (cmd : String) (le : Nat)
    (env : String → Option String) :
    (builtin_echo cmd le env
      = join_all (((splitTok BUILTIN_DELIMS
            (cmd.data.dropWhile (fun c => !(isspace_c c)))).map
          (fun t => echo_expand t le env ++ " "))) ++ "\n") ∧
    echo_expand (['$', '?']) le env = Nat.repr le ∧
    (∀ name, name ≠ ['?'] →
      echo_expand ('$' :: name) le env = (env (String.mk name)).getD ("")) ∧
    (∀ t c0, t.head? = some c0 → c0 ≠ '$' →
      echo_expand t le env = String.mk t) := by
  refine ⟨?_, rfl, ?_, ?_⟩
  · unfold builtin_echo
    rw [echo_loop_eq_join]
  · intro name h
    show (if name = ['?'] then Nat.repr le
      else (env (String.mk name)).getD ("")) = (env (String.mk name)).getD ("")
    exact if_neg h
  · intro t c0 hh hc
    cases t with
    | nil => exact absurd hh (by simp)
    | cons a l =>
      have ha : a = c0 := by simpa using hh
      subst ha
      unfold echo_expand
      split
      · rename_i heq
        injection heq with h1 h2
        exact absurd h1 hc
      · rfl

/-- Witness for C7: `echo hello` with `last_exit_code = 0` and an empty
environment writes `hello \n`; `$?` expands to `3` when
`last_exit_code = 3`; an unset `$U` expands to the empty string; `hi`
is literal. -/
theorem C7_witness :
    builtin_echo ("echo hello") 0 (fun _ => none) = "hello \n" ∧
    echo_expand (['$', '?']) 3 (fun _ => none) = "3" ∧
    echo_expand (['$', 'U']) 0 (fun _ => none) = "" ∧
    echo_expand (['h', 'i']) 0 (fun _ => none) = "hi" :=
  ⟨((C7_builtin_echo_output ("echo hello") 0 (fun _ => none)).1).trans
      (by decide),
   ((C7_builtin_echo_output ("") 3 (fun _ => none)).2.1).trans (by decide),
   ((C7_builtin_echo_output ("") 0 (fun _ => none)).2.2.1 (['U'])
      (by decide)).trans (by decide),
   ((C7_builtin_echo_output ("") 0 (fun _ => none)).2.2.2 (['h', 'i']) 'h'
      (by decide) (by decide)).trans (by decide)⟩

/-- Result of one `builtin_exit` call: either the process terminates
via `exit(code)` (running the registered atexit shutdown hook) or the
handler returns the given error code and the shell keeps running. -/
inductive ExitResult where
  | exited (code : Nat)
  | ret (code : Int)
deriving DecidableEq, Repr

/-- `builtin_exit` from `src/builtin.c` lines 73-88 on the dispatched
(non-NULL) trimmed line: `exit(0)` exactly when `strlen(cmd) == 4` and
`strncmp(cmd, "exit", 4) == 0`; otherwise return `-EINVAL` (= `-22`)
without touching any state. -/
def builtin_exit (cmd : String) : ExitResult :=
  if cmd.data.length == 4 && strncmp_eq cmd.data (['e', 'x', 'i', 't']) 4 then
    ExitResult.exited 0
  else
    ExitResult.ret (-22)

/-- The guard of `builtin_exit` holds exactly for the four-character
line `exit`. -/
theorem builtin_exit_cond_iff (cmd : String) :
    (cmd.data.length == 4
        && strncmp_eq cmd.data (['e', 'x', 'i', 't']) 4) = true
      ↔ cmd = "exit" := by
  constructor
  · intro h
    rw [Bool.and_eq_true, beq_iff_eq] at h
    obtain ⟨l⟩ := cmd
    rcases l with _ | ⟨a, _ | ⟨b, _ | ⟨c, _ | ⟨d, _ | ⟨e, l'⟩⟩⟩⟩⟩
    · exact absurd h.1 (by simp)
    · exact absurd h.1 (by simp)
    · exact absurd h.1 (by simp)
    · exact absurd h.1 (by simp)
    · have h2 := h.2
      simp only [strncmp_eq, Bool.and_eq_true, beq_iff_eq, and_true] at h2
      obtain ⟨ha, hb, hc, hd⟩ := h2
      subst ha
      subst hb
      subst hc
      subst hd
      rfl
    · exfalso
      have h5 := h.1
      simp at h5
  · rintro rfl
    decide

/-- Claim C10: the `exit` builtin terminates the shell with `exit(0)`
(running the shutdown hook) exactly when the dispatched trimmed line is
the four characters `exit`; any other dispatched line makes the handler
return `-EINVAL` and the shell continues with its state untouched. -/
theorem C10_builtin_exit_exact (cmd : String) :
    (builtin_exit cmd = ExitResult.exited 0 ↔ cmd = "exit") ∧
    (cmd ≠ "exit" → builtin_exit cmd = ExitResult.ret (-22)) := by
  have key : ∀ h : cmd ≠ "exit", builtin_exit cmd = ExitResult.ret (-22) := by
    intro h
    have hcond : ¬((cmd.data.length == 4
        && strncmp_eq cmd.data (['e', 'x', 'i', 't']) 4) = true) :=
      fun hx => h ((builtin_exit_cond_iff cmd).mp hx)
    unfold builtin_exit
    rw [if_neg hcond]
  constructor
  · constructor
    · intro h
      by_cases hc : cmd = "exit"
      · exact hc
      · rw [key hc] at h
        exact absurd h (by decide)
    · intro h
      subst h
      decide
  · exact key

/-- Witness for C10: `exit 1` is rejected with `-EINVAL` (the shell
keeps running), while the bare line `exit` terminates with code 0. -/
theorem C10_witness :
    builtin_exit ("exit 1") = ExitResult.ret (-22) ∧
    builtin_exit ("exit") = ExitResult.exited 0 :=
  ⟨(C10_builtin_exit_exact ("exit 1")).2 (by decide),
   (C10_builtin_exit_exact ("exit")).1.mpr rfl⟩

/-- A one-command pipeline record for the line `true`. -/
def trueUi : UserInput :=
  { input := "true", commands := [], is_background_command := false }

/-- A job for `true` that exited normally with status 0. -/
def doneJob : Job :=
  { ui := trueUi, status := EXITED, exitcode := 0, pgid := 7, jobid := 1,
    is_background_job := false, is_in_bg := false }

/-- Claim C9 counterexample: for an `EXITED` job with exit code 0 the
claim's format is `[1] (exited 0) true` — the decimal exit code with no
extra surrounding characters — but `print_job`'s format string
`"[%d] (%s <%d>) %s\n"` wraps the exit code in literal angle brackets,
printing `[1] (exited <0>) true`. -/
theorem C9_counterexample :
    print_job doneJob = "[1] (exited <0>) true\n" ∧
    ("[1] (exited <0>) true\n" : String) ≠ "[1] (exited 0) true\n" :=
  ⟨by decide, by decide⟩

/-- The status names of the spec's job-listing format: the lowercase
name of each of the six status codes. -/
def spec_status_name (st : Nat) : String :=
  if st = NEW then "new"
  else if st = RUNNING then "running"
  else if st = SUSPENDED then "suspended"
  else if st = EXITED then "exited"
  else if st = ABORTED then "aborted"
  else if st = CANCELED then "canceled"
  else "(null)"

/-- Claim C9 (amended): `print_job` writes
`[<id>] (<status>) <raw>` plus newline for jobs in non-terminal states
and `[<id>] (<status> \x7b\x7d<exit_code>) <raw>` with the decimal exit
code wrapped in literal angle brackets (`<`…`>`) for `EXITED`/`ABORTED`
jobs, where `<status>` is the lowercase status name. -/
theorem C9_print_job_line_format (j : Job) :
    (j.status = NEW ∨ j.status = RUNNING ∨ j.status = SUSPENDED ∨
        j.status = CANCELED →
      print_job j = "[" ++ Nat.repr j.jobid ++ "] ("
        ++ spec_status_name j.status ++ ") " ++ j.ui.input ++ "\n") ∧
    (j.status = EXITED ∨ j.status = ABORTED →
      print_job j = "[" ++ Nat.repr j.jobid ++ "] ("
        ++ spec_status_name j.status ++ " <" ++ Nat.repr j.exitcode
        ++ ">) " ++ j.ui.input ++ "\n") := by
  constructor
  · intro h
    rcases h with h | h | h | h <;>
      simp [print_job, jobs_status_as_char, spec_status_name, h,
        NEW, RUNNING, SUSPENDED, EXITED, ABORTED, CANCELED]
  · intro h
    rcases h with h | h <;>
      simp [print_job, jobs_status_as_char, spec_status_name, h,
        NEW, RUNNING, SUSPENDED, EXITED, ABORTED, CANCELED]

/-- Witness for C9 (amended): the spec's scenario — a running
background `sleep 60` with job id 1 lists as `[1] (running) sleep 60`. -/
theorem C9_witness :
    print_job sampleJob = "[1] (running) sleep 60\n" :=
  ((C9_print_job_line_format sampleJob).1
    (Or.inr (Or.inl (by decide)))).trans (by decide)

end Smash
